import Mathlib

/-!
# Virtual HID device service client

A shallow embedding of `pqrs::karabiner::driverkit::virtual_hid_device_service::client`
(`include/pqrs/karabiner/driverkit/virtual_hid_device_service/client.hpp`).

* The object is a record `client`; every member function is a function on that record.
* A public member function has a part that runs in the caller (for
  `async_virtual_hid_keyboard_initialize` the cache check and the write of the country
  code) and a lambda that it hands to `enqueue_to_dispatcher`. The lambdas are the values
  of `unit_of_work`; `enqueue_to_dispatcher` appends one to `dispatcher_queue`, and the
  dispatcher runs the queued units in submission order (`dispatch` runs the oldest one,
  `settle` all of them).
* The handlers that `create_client` connects to the transport's signals are functions as
  well: four of them only queue a unit of work, the one of `received` runs at once.
* Signals fired by the client and buffers handed to `local_datagram::client::async_send`
  are collected, in order, as a list of `output`; a fired signal is recorded together with
  the caches as they are at that moment.
* Bytes are natural numbers, buffers are lists of bytes, paths are lists of characters.
-/

namespace virtual_hid_device_service

/-- A `std::filesystem::path`, as the characters of its native string. -/
abbrev path := List Char

/-- The enumerators of `enum class request` that `client.hpp` uses. -/
inductive request
  | driver_loaded
  | driver_version_matched
  | virtual_hid_keyboard_initialize
  | virtual_hid_keyboard_terminate
  | virtual_hid_keyboard_ready
  | virtual_hid_keyboard_reset
  | virtual_hid_pointing_initialize
  | virtual_hid_pointing_terminate
  | virtual_hid_pointing_ready
  | virtual_hid_pointing_reset
  | post_keyboard_input_report
  | post_consumer_input_report
  | post_apple_vendor_keyboard_input_report
  | post_apple_vendor_top_case_input_report
  | post_pointing_input_report
  deriving DecidableEq, Repr

/-- The enumerators of `enum class response` that the `received` handler switches on. -/
inductive response
  | none
  | driver_loaded_result
  | driver_version_matched_result
  | virtual_hid_keyboard_ready_result
  | virtual_hid_pointing_ready_result
  deriving DecidableEq, Repr

/-- Modelled from the spec: `version.hpp`, `request.hpp`, `response.hpp` and `constants.hpp`
are included by `client.hpp` but are not among the sources, so what they declare is a
parameter of the model. `embedded_driver_version` is the object representation (the raw
bytes) of `driver_version::embedded_driver_version`; `request_value` and `response_value`
give the underlying byte of each enumerator (the spec fixes the opcode at one byte and gives
no numbering); the last two fields are `constants::get_server_socket_directory_path()` and
`constants::local_datagram_buffer_size`. -/
structure protocol_constants where
  embedded_driver_version : List Nat
  request_value : request → Nat
  response_value : response → Nat
  server_socket_directory_path : path
  local_datagram_buffer_size : Nat

/-- The argument of the five `async_post_report` overloads: which report struct it is,
and the struct's object representation (its `sizeof` raw bytes). -/
inductive hid_report
  | keyboard_input (bytes : List Nat)
  | consumer_input (bytes : List Nat)
  | apple_vendor_keyboard_input (bytes : List Nat)
  | apple_vendor_top_case_input (bytes : List Nat)
  | pointing_input (bytes : List Nat)
  deriving DecidableEq, Repr

/-- The eight signals of `client.hpp` (lines 25-32), with the argument they are fired with. -/
inductive signal
  | connected
  | connect_failed (error_code : Nat)
  | closed
  | error_occurred (error_code : Nat)
  | driver_loaded_response (value : Bool)
  | driver_version_matched_response (value : Bool)
  | virtual_hid_keyboard_ready_response (value : Bool)
  | virtual_hid_pointing_ready_response (value : Bool)
  deriving DecidableEq, Repr

/-- The three cache members of `class client` (lines 278-281) at one moment. -/
structure cache_view where
  keyboard_ready : Option Bool
  pointing_ready : Option Bool
  country_code : Option Nat
  deriving DecidableEq, Repr

/-- What the client does that its environment can observe, in the order it does it: a
signal fired (`seen` holds the caches at the moment of the call, which is what a slot that
calls back into the client finds), or a buffer handed to `client_->async_send(buffer)`. -/
inductive output
  | fired (sig : signal) (seen : cache_view)
  | transport_async_send (buffer : List Nat)
  deriving DecidableEq, Repr

/-- The lambdas that `client.hpp` passes to `enqueue_to_dispatcher`, with their captures. -/
inductive unit_of_work
  | start
  | stop
  | send (r : request) (data : Option (List Nat))
  | connected
  | connect_failed (error_code : Nat)
  | closed
  | error_occurred (error_code : Nat)
  deriving DecidableEq, Repr

/-- The `local_datagram::client` owned through `client_`, as far as `create_client` and
`async_start` configure it. -/
structure local_datagram_client where
  server_socket_file_path : path
  client_socket_file_path : path
  buffer_size : Nat
  server_check_interval : Option Nat
  reconnect_interval : Option Nat
  started : Bool
  deriving DecidableEq, Repr

/-- The data members of `class client` (lines 275-281) and the units of work it has
submitted to the dispatcher that have not run yet. -/
structure client where
  client_socket_file_path_ : path
  client_ : Option local_datagram_client
  last_virtual_hid_keyboard_ready_ : Option Bool
  last_virtual_hid_pointing_ready_ : Option Bool
  last_virtual_hid_keyboard_initialize_country_code_ : Option Nat
  dispatcher_queue : List unit_of_work
  deriving DecidableEq, Repr

/-- The constructor `client(client_socket_file_path)`: no transport, every cache empty. -/
def client.new (client_socket_file_path : path) : client :=
  { client_socket_file_path_ := client_socket_file_path
    client_ := none
    last_virtual_hid_keyboard_ready_ := none
    last_virtual_hid_pointing_ready_ := none
    last_virtual_hid_keyboard_initialize_country_code_ := none
    dispatcher_queue := [] }

/-- The caches of the client as they are now. -/
def client.view (s : client) : cache_view :=
  { keyboard_ready := s.last_virtual_hid_keyboard_ready_
    pointing_ready := s.last_virtual_hid_pointing_ready_
    country_code := s.last_virtual_hid_keyboard_initialize_country_code_ }

/-- A signal is fired while the client is in state `s`. -/
def fire (sig : signal) (s : client) : output :=
  output.fired sig s.view

/-- The buffers handed to the transport, in order. -/
def sent_frames : List output → List (List Nat)
  | [] => []
  | output.transport_async_send buffer :: os => buffer :: sent_frames os
  | output.fired _ _ :: os => sent_frames os

/-- The signals fired, in order, without the caches seen. -/
def fired_signals : List output → List signal
  | [] => []
  | output.transport_async_send _ :: os => fired_signals os
  | output.fired sig _ :: os => sig :: fired_signals os

/-! ## Server discovery -/

/-- `std::filesystem::path::operator/` for a relative right operand: a separator is put
between the two unless the left operand is empty or already ends in one. -/
def path_append (p q : path) : path :=
  if p = [] then q
  else if p.getLast? = some '/' then p ++ q
  else p ++ ['/'] ++ q

/-- `client::find_server_socket_file_path` (lines 144-154). `glob` is `glob::glob`: the
directory enumeration, from a pattern to the matching paths. `std::sort` is a sort by the
order of the paths; the paths that match `<directory>/*.sock` lie in one directory, where
that order is the lexicographic order of the characters. `paths.back()` is the last
element of the sorted vector. -/
def find_server_socket_file_path (K : protocol_constants) (glob : path → List path) : path :=
  let pattern := path_append K.server_socket_directory_path "*.sock".toList
  let paths := (glob pattern).insertionSort (fun a b => a ≤ b)
  match paths.getLast? with
  | some back => back
  | none => path_append K.server_socket_directory_path "not_found.sock".toList

/-! ## Frames -/

/-- `client::append_data` (lines 268-273): the buffer grows by `sizeof(data)` bytes, which
receive the object representation of `data`. -/
def append_data (buffer data : List Nat) : List Nat :=
  buffer ++ data

/-- The buffer built inside the two `async_send` lambdas (lines 247-249 and 259-262). -/
def send_buffer (K : protocol_constants) (r : request) (data : Option (List Nat)) : List Nat :=
  let buffer := append_data [] K.embedded_driver_version
  let buffer := append_data buffer [K.request_value r]
  match data with
  | none => buffer
  | some d => append_data buffer d

/-! ## The dispatcher side -/

/-- `client::create_client` (lines 156-165): the transport is made and configured; the
signal connections of lines 167-241 are the functions `client.transport_*` and `received`. -/
def create_client (K : protocol_constants) (glob : path → List path) (s : client) : client :=
  { s with
    client_ := some
      { server_socket_file_path := find_server_socket_file_path K glob
        client_socket_file_path := s.client_socket_file_path_
        buffer_size := K.local_datagram_buffer_size
        server_check_interval := some 3000
        reconnect_interval := some 1000
        started := false } }

/-- The body of one queued lambda, run by the dispatcher: of `async_start` (lines 47-57),
of `async_stop` (lines 61-63), of the two `async_send` (lines 245-252 and 257-265), and of
the handlers of `connected`, `connect_failed`, `closed` and `error_occurred` (lines 168-170,
174-176, 180-188, 192-194). -/
def run_unit_of_work (K : protocol_constants) (glob : path → List path) (w : unit_of_work)
    (s : client) : client × List output :=
  match w with
  | unit_of_work.start =>
    if s.client_.isSome then (s, [])
    else
      let s1 := create_client K glob s
      ({ s1 with client_ := s1.client_.map (fun t => { t with started := true }) }, [])
  | unit_of_work.stop => ({ s with client_ := none }, [])
  | unit_of_work.send r data =>
    if s.client_.isSome then (s, [output.transport_async_send (send_buffer K r data)])
    else (s, [])
  | unit_of_work.connected => (s, [fire signal.connected s])
  | unit_of_work.connect_failed error_code => (s, [fire (signal.connect_failed error_code) s])
  | unit_of_work.closed =>
    let o0 := fire signal.closed s
    let s1 := { s with last_virtual_hid_keyboard_ready_ := some false }
    let o1 := fire (signal.virtual_hid_keyboard_ready_response false) s1
    let s2 := { s1 with last_virtual_hid_pointing_ready_ := some false }
    let o2 := fire (signal.virtual_hid_pointing_ready_response false) s2
    (s2, [o0, o1, o2])
  | unit_of_work.error_occurred error_code => (s, [fire (signal.error_occurred error_code) s])

/-- The handler connected to `client_->received` (lines 197-241). It is not queued: it
runs where the transport fires the signal. `buffer` is the shared pointer (possibly
null), `r :: p` the bytes it points to. -/
def received (K : protocol_constants) (buffer : Option (List Nat)) (s : client) :
    client × List output :=
  match buffer with
  | none => (s, [])
  | some [] => (s, [])
  | some (r :: p) =>
    let size := (r :: p).length - 1
    if r = K.response_value response.none then (s, [])
    else if r = K.response_value response.driver_loaded_result then
      if size = 1 then (s, [fire (signal.driver_loaded_response (p.headD 0 != 0)) s])
      else (s, [])
    else if r = K.response_value response.driver_version_matched_result then
      if size = 1 then (s, [fire (signal.driver_version_matched_response (p.headD 0 != 0)) s])
      else (s, [])
    else if r = K.response_value response.virtual_hid_keyboard_ready_result then
      if size = 1 then
        let s1 := { s with last_virtual_hid_keyboard_ready_ := some (p.headD 0 != 0) }
        (s1, [fire (signal.virtual_hid_keyboard_ready_response (p.headD 0 != 0)) s1])
      else (s, [])
    else if r = K.response_value response.virtual_hid_pointing_ready_result then
      if size = 1 then
        let s1 := { s with last_virtual_hid_pointing_ready_ := some (p.headD 0 != 0) }
        (s1, [fire (signal.virtual_hid_pointing_ready_response (p.headD 0 != 0)) s1])
      else (s, [])
    else (s, [])

/-- The dispatcher runs the oldest queued unit of work, if there is one. -/
def dispatch (K : protocol_constants) (glob : path → List path) (s : client) :
    client × List output :=
  match s.dispatcher_queue with
  | [] => (s, [])
  | w :: rest => run_unit_of_work K glob w { s with dispatcher_queue := rest }

/-- The units `ws` run one after the other, in order. -/
def run_queue (K : protocol_constants) (glob : path → List path) :
    List unit_of_work → client → client × List output
  | [], s => (s, [])
  | w :: ws, s =>
    let r1 := run_unit_of_work K glob w s
    let r2 := run_queue K glob ws r1.1
    (r2.1, r1.2 ++ r2.2)

/-- The dispatcher runs everything that is queued, in submission order. -/
def settle (K : protocol_constants) (glob : path → List path) (s : client) :
    client × List output :=
  run_queue K glob s.dispatcher_queue { s with dispatcher_queue := [] }

/-! ## The caller side: public member functions -/

/-- `enqueue_to_dispatcher`: the unit of work goes to the back of the queue. -/
def client.enqueue_to_dispatcher (w : unit_of_work) (s : client) : client :=
  { s with dispatcher_queue := s.dispatcher_queue ++ [w] }

/-- `client::async_start` (lines 46-58). -/
def client.async_start (s : client) : client :=
  client.enqueue_to_dispatcher unit_of_work.start s

/-- `client::async_stop` (lines 60-64). -/
def client.async_stop (s : client) : client :=
  client.enqueue_to_dispatcher unit_of_work.stop s

/-- `client::async_send`, both overloads (lines 244-266): `data` is `none` for the
overload without a payload. -/
def client.async_send (r : request) (data : Option (List Nat)) (s : client) : client :=
  client.enqueue_to_dispatcher (unit_of_work.send r data) s

/-- `client::async_driver_loaded` (lines 66-68). -/
def client.async_driver_loaded (s : client) : client :=
  client.async_send request.driver_loaded none s

/-- `client::async_driver_version_matched` (lines 70-72). -/
def client.async_driver_version_matched (s : client) : client :=
  client.async_send request.driver_version_matched none s

/-- `client::async_virtual_hid_keyboard_initialize` (lines 74-87). The country code is a
one-byte value; its object representation is that byte. -/
def client.async_virtual_hid_keyboard_initialize (country_code : Nat) (force : Bool)
    (s : client) : client :=
  if force = false ∧ s.last_virtual_hid_keyboard_ready_ = some true ∧
      s.last_virtual_hid_keyboard_initialize_country_code_ = some country_code then s
  else
    client.async_send request.virtual_hid_keyboard_initialize (some [country_code])
      { s with last_virtual_hid_keyboard_initialize_country_code_ := some country_code }

/-- `client::async_virtual_hid_keyboard_terminate` (lines 89-91). -/
def client.async_virtual_hid_keyboard_terminate (s : client) : client :=
  client.async_send request.virtual_hid_keyboard_terminate none s

/-- `client::async_virtual_hid_keyboard_ready` (lines 93-95). -/
def client.async_virtual_hid_keyboard_ready (s : client) : client :=
  client.async_send request.virtual_hid_keyboard_ready none s

/-- `client::async_virtual_hid_keyboard_reset` (lines 97-99). -/
def client.async_virtual_hid_keyboard_reset (s : client) : client :=
  client.async_send request.virtual_hid_keyboard_reset none s

/-- `client::async_virtual_hid_pointing_initialize` (lines 101-109). -/
def client.async_virtual_hid_pointing_initialize (force : Bool) (s : client) : client :=
  if force = false ∧ s.last_virtual_hid_pointing_ready_ = some true then s
  else client.async_send request.virtual_hid_pointing_initialize none s

/-- `client::async_virtual_hid_pointing_terminate` (lines 111-113). -/
def client.async_virtual_hid_pointing_terminate (s : client) : client :=
  client.async_send request.virtual_hid_pointing_terminate none s

/-- `client::async_virtual_hid_pointing_ready` (lines 115-117). -/
def client.async_virtual_hid_pointing_ready (s : client) : client :=
  client.async_send request.virtual_hid_pointing_ready none s

/-- `client::async_virtual_hid_pointing_reset` (lines 119-121). -/
def client.async_virtual_hid_pointing_reset (s : client) : client :=
  client.async_send request.virtual_hid_pointing_reset none s

/-- `client::async_post_report`, the five overloads (lines 123-141). -/
def client.async_post_report (report : hid_report) (s : client) : client :=
  match report with
  | hid_report.keyboard_input bytes =>
    client.async_send request.post_keyboard_input_report (some bytes) s
  | hid_report.consumer_input bytes =>
    client.async_send request.post_consumer_input_report (some bytes) s
  | hid_report.apple_vendor_keyboard_input bytes =>
    client.async_send request.post_apple_vendor_keyboard_input_report (some bytes) s
  | hid_report.apple_vendor_top_case_input bytes =>
    client.async_send request.post_apple_vendor_top_case_input_report (some bytes) s
  | hid_report.pointing_input bytes =>
    client.async_send request.post_pointing_input_report (some bytes) s

/-! ## The transport side: the signal connections of `create_client` -/

/-- The handler of `client_->connected` (lines 167-171). -/
def client.transport_connected (s : client) : client :=
  client.enqueue_to_dispatcher unit_of_work.connected s

/-- The handler of `client_->connect_failed` (lines 173-177). -/
def client.transport_connect_failed (error_code : Nat) (s : client) : client :=
  client.enqueue_to_dispatcher (unit_of_work.connect_failed error_code) s

/-- The handler of `client_->closed` (lines 179-189). -/
def client.transport_closed (s : client) : client :=
  client.enqueue_to_dispatcher unit_of_work.closed s

/-- The handler of `client_->error_occurred` (lines 191-195). -/
def client.transport_error_occurred (error_code : Nat) (s : client) : client :=
  client.enqueue_to_dispatcher (unit_of_work.error_occurred error_code) s

/-! ## Everything that can happen to a client -/

/-- One thing that happens to a client: a call of a public member function (the part
that runs in the caller), a signal of the transport, or the dispatcher running the oldest
queued unit of work. -/
inductive action
  | async_start
  | async_stop
  | async_driver_loaded
  | async_driver_version_matched
  | async_virtual_hid_keyboard_initialize (country_code : Nat) (force : Bool)
  | async_virtual_hid_keyboard_terminate
  | async_virtual_hid_keyboard_ready
  | async_virtual_hid_keyboard_reset
  | async_virtual_hid_pointing_initialize (force : Bool)
  | async_virtual_hid_pointing_terminate
  | async_virtual_hid_pointing_ready
  | async_virtual_hid_pointing_reset
  | async_post_report (report : hid_report)
  | transport_connected
  | transport_connect_failed (error_code : Nat)
  | transport_closed
  | transport_error_occurred (error_code : Nat)
  | transport_received (buffer : Option (List Nat))
  | dispatch
  deriving DecidableEq, Repr

/-- The effect of one action on the client, and what the environment observes of it. -/
def step (K : protocol_constants) (glob : path → List path) (a : action) (s : client) :
    client × List output :=
  match a with
  | action.async_start => (client.async_start s, [])
  | action.async_stop => (client.async_stop s, [])
  | action.async_driver_loaded => (client.async_driver_loaded s, [])
  | action.async_driver_version_matched => (client.async_driver_version_matched s, [])
  | action.async_virtual_hid_keyboard_initialize country_code force =>
    (client.async_virtual_hid_keyboard_initialize country_code force s, [])
  | action.async_virtual_hid_keyboard_terminate =>
    (client.async_virtual_hid_keyboard_terminate s, [])
  | action.async_virtual_hid_keyboard_ready => (client.async_virtual_hid_keyboard_ready s, [])
  | action.async_virtual_hid_keyboard_reset => (client.async_virtual_hid_keyboard_reset s, [])
  | action.async_virtual_hid_pointing_initialize force =>
    (client.async_virtual_hid_pointing_initialize force s, [])
  | action.async_virtual_hid_pointing_terminate =>
    (client.async_virtual_hid_pointing_terminate s, [])
  | action.async_virtual_hid_pointing_ready => (client.async_virtual_hid_pointing_ready s, [])
  | action.async_virtual_hid_pointing_reset => (client.async_virtual_hid_pointing_reset s, [])
  | action.async_post_report report => (client.async_post_report report s, [])
  | action.transport_connected => (client.transport_connected s, [])
  | action.transport_connect_failed error_code =>
    (client.transport_connect_failed error_code s, [])
  | action.transport_closed => (client.transport_closed s, [])
  | action.transport_error_occurred error_code =>
    (client.transport_error_occurred error_code s, [])
  | action.transport_received buffer => received K buffer s
  | action.dispatch => dispatch K glob s

/-- A sequence of actions, one after the other. -/
def run_actions (K : protocol_constants) (glob : path → List path) :
    List action → client → client × List output
  | [], s => (s, [])
  | a :: as, s =>
    let r1 := step K glob a s
    let r2 := run_actions K glob as r1.1
    (r2.1, r1.2 ++ r2.2)

/-- The request-sending member functions: every public one but `async_start` and
`async_stop`. -/
def action.is_request_sending : action → Bool
  | action.async_driver_loaded => true
  | action.async_driver_version_matched => true
  | action.async_virtual_hid_keyboard_initialize _ _ => true
  | action.async_virtual_hid_keyboard_terminate => true
  | action.async_virtual_hid_keyboard_ready => true
  | action.async_virtual_hid_keyboard_reset => true
  | action.async_virtual_hid_pointing_initialize _ => true
  | action.async_virtual_hid_pointing_terminate => true
  | action.async_virtual_hid_pointing_ready => true
  | action.async_virtual_hid_pointing_reset => true
  | action.async_post_report _ => true
  | _ => false

/-- The actions that the ready caches are written by: the dispatcher running the unit of
work of the `closed` handler, and the receipt of a buffer of two bytes whose first byte is
the value of `virtual_hid_keyboard_ready_result` or of `virtual_hid_pointing_ready_result`. -/
def action.is_ready_result_or_close (K : protocol_constants) (s : client) : action → Prop
  | action.dispatch => s.dispatcher_queue.head? = some unit_of_work.closed
  | action.transport_received (some [r, _]) =>
    r = K.response_value response.virtual_hid_keyboard_ready_result ∨
      r = K.response_value response.virtual_hid_pointing_ready_result
  | _ => False

instance (K : protocol_constants) (s : client) (a : action) :
    Decidable (action.is_ready_result_or_close K s a) := by
  unfold action.is_ready_result_or_close
  split <;> infer_instance

/-- A unit of work queued by `async_send`. -/
def unit_of_work.is_send : unit_of_work → Prop
  | unit_of_work.send _ _ => True
  | _ => False

/-! ## Concrete instances, for evaluation -/

/-- One possible build: a four-byte version, the enumerators numbered in declaration
order (requests from 1, responses from 0). -/
def sample_constants : protocol_constants :=
  { embedded_driver_version := [1, 0, 0, 0]
    request_value := fun r =>
      match r with
      | request.driver_loaded => 1
      | request.driver_version_matched => 2
      | request.virtual_hid_keyboard_initialize => 3
      | request.virtual_hid_keyboard_terminate => 4
      | request.virtual_hid_keyboard_ready => 5
      | request.virtual_hid_keyboard_reset => 6
      | request.virtual_hid_pointing_initialize => 7
      | request.virtual_hid_pointing_terminate => 8
      | request.virtual_hid_pointing_ready => 9
      | request.virtual_hid_pointing_reset => 10
      | request.post_keyboard_input_report => 11
      | request.post_consumer_input_report => 12
      | request.post_apple_vendor_keyboard_input_report => 13
      | request.post_apple_vendor_top_case_input_report => 14
      | request.post_pointing_input_report => 15
    response_value := fun r =>
      match r with
      | response.none => 0
      | response.driver_loaded_result => 1
      | response.driver_version_matched_result => 2
      | response.virtual_hid_keyboard_ready_result => 3
      | response.virtual_hid_pointing_ready_result => 4
    server_socket_directory_path := "/var/run/vhidd_server".toList
    local_datagram_buffer_size := 1024 }

/-- A directory enumeration that finds no socket file. -/
def empty_directory : path → List path :=
  fun _ => []

/-- A directory enumeration that finds `b.sock`, `c.sock` and `a.sock`, in that order. -/
def three_sockets : path → List path :=
  fun _ => ["/var/run/vhidd_server/b.sock".toList, "/var/run/vhidd_server/c.sock".toList,
    "/var/run/vhidd_server/a.sock".toList]

/-- A directory enumeration that finds the same three files in the order `a.sock`,
`b.sock`, `c.sock`. -/
def three_sockets_sorted : path → List path :=
  fun _ => ["/var/run/vhidd_server/a.sock".toList, "/var/run/vhidd_server/b.sock".toList,
    "/var/run/vhidd_server/c.sock".toList]

/-- A client that was started (the unit of work of `async_start` has run). -/
def started_client : client :=
  (settle sample_constants three_sockets (client.async_start (client.new "/tmp/c.sock".toList))).1


/-- A client that was never started, on which `async_virtual_hid_keyboard_initialize(0)`
was called once (the dispatcher has run the queued send, which found no transport). -/
def initialized_unstarted_client : client :=
  (settle sample_constants empty_directory
    ( client.async_virtual_hid_keyboard_initialize 0 false
      (client.new "/tmp/c.sock".toList))).1

/-- A client that was started, asked for a keyboard with country code 0, and then told
by the service that the keyboard is ready. -/
def ready_client : client :=
  (run_actions sample_constants three_sockets
    [action.async_start, action.dispatch,
      action.async_virtual_hid_keyboard_initialize 0 false, action.dispatch,
      action.transport_received (some [3, 1])]
    (client.new "/tmp/c.sock".toList)).1

/-! ## The dispatcher queue -/

theorem sent_frames_append (xs ys : List output) :
    sent_frames (xs ++ ys) = sent_frames xs ++ sent_frames ys := by
  induction xs with
  | nil => rfl
  | cons x xs ih => cases x <;> simp [sent_frames, ih]

theorem run_queue_append (K : protocol_constants) (glob : path → List path)
    (ws vs : List unit_of_work) (s : client) :
    run_queue K glob (ws ++ vs) s =
      ((run_queue K glob vs (run_queue K glob ws s).1).1,
        (run_queue K glob ws s).2 ++ (run_queue K glob vs (run_queue K glob ws s).1).2) := by
  induction ws generalizing s with
  | nil => simp [run_queue]
  | cons w ws ih => simp [run_queue, ih, List.append_assoc]

theorem run_queue_singleton (K : protocol_constants) (glob : path → List path)
    (w : unit_of_work) (s : client) :
    run_queue K glob [w] s = run_unit_of_work K glob w s := by
  simp [run_queue]

theorem settle_enqueue (K : protocol_constants) (glob : path → List path)
    (w : unit_of_work) (s : client) :
    settle K glob (client.enqueue_to_dispatcher w s) =
      ((run_unit_of_work K glob w (settle K glob s).1).1,
        (settle K glob s).2 ++ (run_unit_of_work K glob w (settle K glob s).1).2) := by
  simp [settle, client.enqueue_to_dispatcher, run_queue_append, run_queue_singleton]

theorem run_unit_of_work_country_code (K : protocol_constants) (glob : path → List path)
    (w : unit_of_work) (s : client) (x : Option Nat) :
    (run_unit_of_work K glob w
        { s with last_virtual_hid_keyboard_initialize_country_code_ := x }).1 =
      { (run_unit_of_work K glob w s).1 with
        last_virtual_hid_keyboard_initialize_country_code_ := x } ∧
    sent_frames (run_unit_of_work K glob w
        { s with last_virtual_hid_keyboard_initialize_country_code_ := x }).2 =
      sent_frames (run_unit_of_work K glob w s).2 := by
  cases w <;> simp [run_unit_of_work, create_client, sent_frames, fire] <;>
    split <;> simp [sent_frames]

theorem run_queue_country_code (K : protocol_constants) (glob : path → List path)
    (ws : List unit_of_work) (s : client) (x : Option Nat) :
    (run_queue K glob ws
        { s with last_virtual_hid_keyboard_initialize_country_code_ := x }).1 =
      { (run_queue K glob ws s).1 with
        last_virtual_hid_keyboard_initialize_country_code_ := x } ∧
    sent_frames (run_queue K glob ws
        { s with last_virtual_hid_keyboard_initialize_country_code_ := x }).2 =
      sent_frames (run_queue K glob ws s).2 := by
  induction ws generalizing s with
  | nil => simp [run_queue]
  | cons w ws ih =>
    have h1 := run_unit_of_work_country_code K glob w s x
    simp only [run_queue, sent_frames_append, h1.1, h1.2]
    have h2 := ih (run_unit_of_work K glob w s).1
    exact ⟨h2.1, by rw [h2.2]⟩

theorem settle_country_code (K : protocol_constants) (glob : path → List path)
    (s : client) (x : Option Nat) :
    (settle K glob { s with last_virtual_hid_keyboard_initialize_country_code_ := x }).1 =
      { (settle K glob s).1 with last_virtual_hid_keyboard_initialize_country_code_ := x } ∧
    sent_frames (settle K glob
        { s with last_virtual_hid_keyboard_initialize_country_code_ := x }).2 =
      sent_frames (settle K glob s).2 :=
  run_queue_country_code K glob s.dispatcher_queue { s with dispatcher_queue := [] } x


theorem run_unit_of_work_send (K : protocol_constants) (glob : path → List path)
    (r : request) (data : Option (List Nat)) (s : client) :
    run_unit_of_work K glob (unit_of_work.send r data) s =
      (s, if s.client_.isSome then [output.transport_async_send (send_buffer K r data)]
          else []) := by
  simp only [run_unit_of_work]
  split <;> rfl

theorem send_buffer_some (K : protocol_constants) (r : request) (d : List Nat) :
    send_buffer K r (some d) = K.embedded_driver_version ++ [K.request_value r] ++ d := by
  simp [send_buffer, append_data]

theorem send_buffer_none (K : protocol_constants) (r : request) :
    send_buffer K r none = K.embedded_driver_version ++ [K.request_value r] := by
  simp [send_buffer, append_data]

/-- What a queued `async_send` adds once the dispatcher has run the queue: the state is
the one the older units leave, and one frame follows theirs when the transport is there. -/
theorem settle_async_send (K : protocol_constants) (glob : path → List path)
    (r : request) (data : Option (List Nat)) (s : client) :
    settle K glob (client.async_send r data s) =
      ((settle K glob s).1,
        (settle K glob s).2 ++
          (if (settle K glob s).1.client_.isSome then
            [output.transport_async_send (send_buffer K r data)] else [])) := by
  simp [client.async_send, settle_enqueue, run_unit_of_work_send]

/-! ## Keyboard initialisation -/

theorem keyboard_initialize_of_suppressed (s : client) (c : Nat)
    (h : s.last_virtual_hid_keyboard_ready_ = some true ∧
      s.last_virtual_hid_keyboard_initialize_country_code_ = some c) :
    client.async_virtual_hid_keyboard_initialize c false s = s := by
  simp [client.async_virtual_hid_keyboard_initialize, h]

theorem keyboard_initialize_of_sent (s : client) (c : Nat) (force : Bool)
    (h : force = true ∨ ¬ (s.last_virtual_hid_keyboard_ready_ = some true ∧
      s.last_virtual_hid_keyboard_initialize_country_code_ = some c)) :
    client.async_virtual_hid_keyboard_initialize c force s =
      client.async_send request.virtual_hid_keyboard_initialize (some [c])
        { s with last_virtual_hid_keyboard_initialize_country_code_ := some c } := by
  simp only [client.async_virtual_hid_keyboard_initialize]
  rw [if_neg]
  rcases h with h | h
  · simp [h]
  · exact fun h' => h h'.2

theorem settle_keyboard_initialize_of_sent (K : protocol_constants)
    (glob : path → List path) (s : client) (c : Nat) (force : Bool)
    (h : force = true ∨ ¬ (s.last_virtual_hid_keyboard_ready_ = some true ∧
      s.last_virtual_hid_keyboard_initialize_country_code_ = some c)) :
    (settle K glob ( client.async_virtual_hid_keyboard_initialize c force s)).1 =
      { (settle K glob s).1 with
        last_virtual_hid_keyboard_initialize_country_code_ := some c } ∧
    sent_frames (settle K glob ( client.async_virtual_hid_keyboard_initialize c force s)).2 =
      sent_frames (settle K glob s).2 ++
        (if (settle K glob s).1.client_.isSome then
          [K.embedded_driver_version ++
            [K.request_value request.virtual_hid_keyboard_initialize] ++ [c]]
        else []) := by
  have hcc := settle_country_code K glob s (some c)
  rw [keyboard_initialize_of_sent s c force h, settle_async_send]
  refine ⟨hcc.1, ?_⟩
  rw [sent_frames_append, hcc.2, hcc.1]
  simp only [send_buffer_some]
  split <;> simp [sent_frames]

theorem keyboard_initialize_twice (s : client) (c : Nat)
    (h : s.last_virtual_hid_keyboard_ready_ = some true) :
    client.async_virtual_hid_keyboard_initialize c false
        ( client.async_virtual_hid_keyboard_initialize c false s) =
      client.async_virtual_hid_keyboard_initialize c false s := by
  apply keyboard_initialize_of_suppressed
  by_cases hc : s.last_virtual_hid_keyboard_initialize_country_code_ = some c
  · rw [keyboard_initialize_of_suppressed s c ⟨h, hc⟩]
    exact ⟨h, hc⟩
  · rw [keyboard_initialize_of_sent s c false (Or.inr fun h' => hc h'.2)]
    exact ⟨h, rfl⟩

theorem keyboard_initialize_iterate (s : client) (c : Nat) (n : Nat)
    (h : s.last_virtual_hid_keyboard_ready_ = some true) :
    ( client.async_virtual_hid_keyboard_initialize c false)^[n + 1] s =
      client.async_virtual_hid_keyboard_initialize c false s := by
  induction n with
  | zero => rfl
  | succ n ih =>
    rw [Function.iterate_succ_apply', ih]
    exact keyboard_initialize_twice s c h

theorem settle_of_queue_nil (K : protocol_constants) (glob : path → List path) (s : client)
    (hq : s.dispatcher_queue = []) : settle K glob s = (s, []) := by
  simp only [settle, hq, run_queue]
  cases s
  simp_all

theorem step_keyboard_initialize_suppressed (K : protocol_constants)
    (glob : path → List path) (s : client) (c : Nat)
    (hk : s.last_virtual_hid_keyboard_ready_ = some true)
    (hc : s.last_virtual_hid_keyboard_initialize_country_code_ = some c) :
    step K glob (action.async_virtual_hid_keyboard_initialize c false) s = (s, []) := by
  simp only [step, keyboard_initialize_of_suppressed s c ⟨hk, hc⟩]

theorem run_actions_keyboard_initialize_settled (K : protocol_constants)
    (glob : path → List path) (as : List action) (s : client) (c : Nat)
    (hq : s.dispatcher_queue = [])
    (hk : s.last_virtual_hid_keyboard_ready_ = some true)
    (hc : s.last_virtual_hid_keyboard_initialize_country_code_ = some c)
    (has : ∀ a ∈ as, a = action.async_virtual_hid_keyboard_initialize c false ∨
      a = action.dispatch) :
    run_actions K glob as s = (s, []) := by
  induction as with
  | nil => rfl
  | cons a as ih =>
    have hstep : step K glob a s = (s, []) := by
      rcases has a (List.mem_cons_self _ _) with ha | ha
      · rw [ha]; exact step_keyboard_initialize_suppressed K glob s c hk hc
      · rw [ha]; simp only [step, dispatch, hq]
    simp only [run_actions, hstep, ih (fun b hb => has b (List.mem_cons_of_mem _ hb)),
      List.append_nil]

theorem run_actions_keyboard_initialize_pending (K : protocol_constants)
    (glob : path → List path) (as : List action) (s : client) (c : Nat)
    (hq : s.dispatcher_queue =
      [unit_of_work.send request.virtual_hid_keyboard_initialize (some [c])])
    (hl : s.client_.isSome = true)
    (hk : s.last_virtual_hid_keyboard_ready_ = some true)
    (hc : s.last_virtual_hid_keyboard_initialize_country_code_ = some c)
    (has : ∀ a ∈ as, a = action.async_virtual_hid_keyboard_initialize c false ∨
      a = action.dispatch) :
    sent_frames ((run_actions K glob as s).2 ++
        (settle K glob (run_actions K glob as s).1).2) =
      [K.embedded_driver_version ++
        [K.request_value request.virtual_hid_keyboard_initialize] ++ [c]] := by
  induction as with
  | nil =>
    simp only [run_actions, List.nil_append, settle, hq, run_queue, run_unit_of_work, hl,
      if_true, List.append_nil, sent_frames, send_buffer_some]
  | cons a as ih =>
    rcases has a (List.mem_cons_self _ _) with ha | ha
    · have hstep := step_keyboard_initialize_suppressed K glob s c hk hc
      rw [ha]
      simp only [run_actions, hstep, List.nil_append]
      exact ih (fun b hb => has b (List.mem_cons_of_mem _ hb))
    · rw [ha]
      have hstep : step K glob action.dispatch s =
          ({ s with dispatcher_queue := [] },
            [output.transport_async_send
              (send_buffer K request.virtual_hid_keyboard_initialize (some [c]))]) := by
        simp only [step, dispatch, hq, run_unit_of_work, hl, if_true]
      have hrest := run_actions_keyboard_initialize_settled K glob as
        { s with dispatcher_queue := [] } c rfl hk hc
        (fun b hb => has b (List.mem_cons_of_mem _ hb))
      simp only [run_actions, hstep, hrest, List.append_nil,
        settle_of_queue_nil K glob { s with dispatcher_queue := [] } rfl, sent_frames,
        send_buffer_some]

theorem run_actions_keyboard_initialize_fresh (K : protocol_constants)
    (glob : path → List path) (as : List action) (s : client) (c : Nat)
    (hq : s.dispatcher_queue = [])
    (hl : s.client_.isSome = true)
    (hk : s.last_virtual_hid_keyboard_ready_ = some true)
    (hc : s.last_virtual_hid_keyboard_initialize_country_code_ ≠ some c)
    (has : ∀ a ∈ as, a = action.async_virtual_hid_keyboard_initialize c false ∨
      a = action.dispatch)
    (hmem : action.async_virtual_hid_keyboard_initialize c false ∈ as) :
    sent_frames ((run_actions K glob as s).2 ++
        (settle K glob (run_actions K glob as s).1).2) =
      [K.embedded_driver_version ++
        [K.request_value request.virtual_hid_keyboard_initialize] ++ [c]] := by
  induction as with
  | nil => simp at hmem
  | cons a as ih =>
    rcases has a (List.mem_cons_self _ _) with ha | ha
    · rw [ha]
      have hstep : step K glob (action.async_virtual_hid_keyboard_initialize c false) s =
          ( client.async_send request.virtual_hid_keyboard_initialize (some [c])
            { s with last_virtual_hid_keyboard_initialize_country_code_ := some c }, []) := by
        simp only [step, keyboard_initialize_of_sent s c false (Or.inr fun h => hc h.2)]
      simp only [run_actions, hstep, List.nil_append]
      exact run_actions_keyboard_initialize_pending K glob as _ c
        (by simp [client.async_send, client.enqueue_to_dispatcher, hq]) hl hk rfl
        (fun b hb => has b (List.mem_cons_of_mem _ hb))
    · rw [ha]
      have hstep : step K glob action.dispatch s = (s, []) := by
        simp only [step, dispatch, hq]
      simp only [run_actions, hstep, List.nil_append]
      apply ih (fun b hb => has b (List.mem_cons_of_mem _ hb))
      rw [ha] at hmem
      simpa using hmem

/-- C1 (amended): `async_virtual_hid_keyboard_initialize(c, false)` returns at once,
leaving the client as it is (nothing queued, no cache written), when the keyboard ready
cache is True and the cached country code is `c`. In every other case it records `c` as
the cached country code and queues one send; when the dispatcher has run the queue the
caches are those the older units leave, with country code `c`, and exactly one frame, the
version, the opcode and the byte `c`, has followed the frames of the older units if the
transport is there when the send runs, none if it is not. So the call hands no frame to
the transport and changes no cache exactly when it returns at once, or when there is no
transport and the cached country code is `c` already. -/
theorem keyboard_initialize_unforced (K : protocol_constants) (glob : path → List path)
    (s : client) (c : Nat) :
    (s.last_virtual_hid_keyboard_ready_ = some true ∧
        s.last_virtual_hid_keyboard_initialize_country_code_ = some c →
      client.async_virtual_hid_keyboard_initialize c false s = s) ∧
    (¬ (s.last_virtual_hid_keyboard_ready_ = some true ∧
        s.last_virtual_hid_keyboard_initialize_country_code_ = some c) →
      ( client.async_virtual_hid_keyboard_initialize c false s).view =
        { s.view with country_code := some c } ∧
      (settle K glob ( client.async_virtual_hid_keyboard_initialize c false s)).1 =
        { (settle K glob s).1 with
          last_virtual_hid_keyboard_initialize_country_code_ := some c } ∧
      sent_frames (settle K glob ( client.async_virtual_hid_keyboard_initialize c false s)).2 =
        sent_frames (settle K glob s).2 ++
          (if (settle K glob s).1.client_.isSome then
            [K.embedded_driver_version ++
              [K.request_value request.virtual_hid_keyboard_initialize] ++ [c]]
          else [])) ∧
    ((sent_frames (settle K glob ( client.async_virtual_hid_keyboard_initialize c false s)).2 =
          sent_frames (settle K glob s).2 ∧
        ( client.async_virtual_hid_keyboard_initialize c false s).view = s.view) ↔
      ((s.last_virtual_hid_keyboard_ready_ = some true ∧
          s.last_virtual_hid_keyboard_initialize_country_code_ = some c) ∨
        ((settle K glob s).1.client_ = none ∧
          s.last_virtual_hid_keyboard_initialize_country_code_ = some c))) := by
  by_cases h : s.last_virtual_hid_keyboard_ready_ = some true ∧
      s.last_virtual_hid_keyboard_initialize_country_code_ = some c
  · simp [keyboard_initialize_of_suppressed s c h, h]
  · have hv : ( client.async_virtual_hid_keyboard_initialize c false s).view =
        { s.view with country_code := some c } := by
      rw [keyboard_initialize_of_sent s c false (Or.inr h)]; rfl
    have hsf := settle_keyboard_initialize_of_sent K glob s c false (Or.inr h)
    refine ⟨fun h' => absurd h' h, fun _ => ⟨hv, hsf.1, hsf.2⟩, ?_⟩
    rw [hsf.2, hv]
    cases hc : (settle K glob s).1.client_ with
    | none =>
      simp [client.view, h, cache_view.mk.injEq]
      exact eq_comm
    | some t => simp [client.view, h, cache_view.mk.injEq]

/-- C1, the input that refutes the claim as first stated: on a client that
was never started and whose cached country code is already 0, the call with `c = 0` hands
no frame to any transport and changes no cache, although the keyboard ready cache is not
True (it is Unknown). -/
theorem keyboard_initialize_unforced_counterexample :
    (sent_frames (settle sample_constants empty_directory
        ( client.async_virtual_hid_keyboard_initialize 0 false initialized_unstarted_client)).2 =
        [] ∧
      ( client.async_virtual_hid_keyboard_initialize 0 false initialized_unstarted_client).view =
        initialized_unstarted_client.view) ∧
    ¬ (initialized_unstarted_client.last_virtual_hid_keyboard_ready_ = some true ∧
      initialized_unstarted_client.last_virtual_hid_keyboard_initialize_country_code_ =
        some 0) := by
  decide

/-- C1, the theorem at a concrete input: a started client whose caches are empty sends
the frame `1 0 0 0 | 3 | 33` for country code 33. -/
theorem keyboard_initialize_unforced_witness :
    ( client.async_virtual_hid_keyboard_initialize 33 false started_client).view =
        { started_client.view with country_code := some 33 } ∧
      (settle sample_constants three_sockets
          ( client.async_virtual_hid_keyboard_initialize 33 false started_client)).1 =
        { (settle sample_constants three_sockets started_client).1 with
          last_virtual_hid_keyboard_initialize_country_code_ := some 33 } ∧
      sent_frames (settle sample_constants three_sockets
          ( client.async_virtual_hid_keyboard_initialize 33 false started_client)).2 =
        sent_frames (settle sample_constants three_sockets started_client).2 ++
          (if (settle sample_constants three_sockets started_client).1.client_.isSome then
            [sample_constants.embedded_driver_version ++
              [sample_constants.request_value request.virtual_hid_keyboard_initialize] ++ [33]]
          else []) :=
  (keyboard_initialize_unforced sample_constants three_sockets started_client 33).2.1
    (by decide)

/-- C2 (amended): from any state whose keyboard ready cache is True and whose transport
is there when the dispatcher reaches the queued sends, `n >= 1` consecutive calls
`async_virtual_hid_keyboard_initialize(c, false)` leave the client exactly as the first
call alone does, every call after the first changes nothing and queues nothing, and once
the dispatcher has run the queue the calls have handed the transport exactly one frame
(version, opcode, `c`) when the cached country code was absent or different from `c`, and
no frame at all when it was `c` already. The same count holds when nothing was pending at
the start and the dispatcher runs any number of times between the calls. -/
theorem keyboard_initialize_repeated (K : protocol_constants) (glob : path → List path)
    (s : client) (c n : Nat) (hn : 1 ≤ n)
    (hready : s.last_virtual_hid_keyboard_ready_ = some true)
    (hlive : (settle K glob s).1.client_.isSome = true) :
    ( client.async_virtual_hid_keyboard_initialize c false)^[n] s =
      client.async_virtual_hid_keyboard_initialize c false s ∧
    (∀ k, 1 ≤ k →
      client.async_virtual_hid_keyboard_initialize c false
          (( client.async_virtual_hid_keyboard_initialize c false)^[k] s) =
        ( client.async_virtual_hid_keyboard_initialize c false)^[k] s) ∧
    sent_frames (settle K glob
        (( client.async_virtual_hid_keyboard_initialize c false)^[n] s)).2 =
      sent_frames (settle K glob s).2 ++
        (if s.last_virtual_hid_keyboard_initialize_country_code_ = some c then []
        else [K.embedded_driver_version ++
          [K.request_value request.virtual_hid_keyboard_initialize] ++ [c]]) ∧
    (s.dispatcher_queue = [] →
      ∀ as : List action,
        (∀ a ∈ as, a = action.async_virtual_hid_keyboard_initialize c false ∨
          a = action.dispatch) →
        action.async_virtual_hid_keyboard_initialize c false ∈ as →
          sent_frames ((run_actions K glob as s).2 ++
              (settle K glob (run_actions K glob as s).1).2) =
            (if s.last_virtual_hid_keyboard_initialize_country_code_ = some c then []
            else [K.embedded_driver_version ++
              [K.request_value request.virtual_hid_keyboard_initialize] ++ [c]])) := by
  have hit : ∀ k, 1 ≤ k → ( client.async_virtual_hid_keyboard_initialize c false)^[k] s =
      client.async_virtual_hid_keyboard_initialize c false s := by
    intro k hk
    obtain ⟨m, rfl⟩ : ∃ m, k = m + 1 := ⟨k - 1, by omega⟩
    exact keyboard_initialize_iterate s c m hready
  refine ⟨hit n hn, ?_, ?_, ?_⟩
  · intro k hk
    rw [hit k hk]
    exact keyboard_initialize_twice s c hready
  · rw [hit n hn]
    by_cases hc : s.last_virtual_hid_keyboard_initialize_country_code_ = some c
    · rw [keyboard_initialize_of_suppressed s c ⟨hready, hc⟩]
      simp [hc]
    · rw [(settle_keyboard_initialize_of_sent K glob s c false
        (Or.inr fun h' => hc h'.2)).2]
      simp [hc, hlive]
  · intro hq as has hmem
    have hl : s.client_.isSome = true := by
      rw [settle_of_queue_nil K glob s hq] at hlive
      exact hlive
    by_cases hc : s.last_virtual_hid_keyboard_initialize_country_code_ = some c
    · rw [run_actions_keyboard_initialize_settled K glob as s c hq hready hc has,
        settle_of_queue_nil K glob s hq, if_pos hc]
      rfl
    · rw [if_neg hc]
      exact run_actions_keyboard_initialize_fresh K glob as s c hq hl hready hc has hmem

/-- C2, the input that refutes the claim as first stated: on a started client whose
keyboard ready cache is True and whose cached country code is 0 already, three calls with
`c = 0` hand the transport no frame at all, not one. -/
theorem keyboard_initialize_repeated_counterexample :
    ready_client.client_.isSome = true ∧
    ready_client.dispatcher_queue = [] ∧
    ready_client.last_virtual_hid_keyboard_ready_ = some true ∧
    sent_frames (settle sample_constants three_sockets
      (( client.async_virtual_hid_keyboard_initialize 0 false)^[3] ready_client)).2 = [] := by
  decide

/-- C2, the theorem at a concrete input: on the same client three calls with the new
country code 7 hand the transport the one frame `1 0 0 0 | 3 | 7`. -/
theorem keyboard_initialize_repeated_witness :
    sent_frames (settle sample_constants three_sockets
        (( client.async_virtual_hid_keyboard_initialize 7 false)^[3] ready_client)).2 =
      sent_frames (settle sample_constants three_sockets ready_client).2 ++
        (if ready_client.last_virtual_hid_keyboard_initialize_country_code_ = some 7 then []
        else [sample_constants.embedded_driver_version ++
          [sample_constants.request_value request.virtual_hid_keyboard_initialize] ++ [7]]) :=
  (keyboard_initialize_repeated sample_constants three_sockets ready_client 7 3
    (by decide) (by decide) (by decide)).2.2.1

/-- C3 (amended): whatever the caches hold, `async_virtual_hid_keyboard_initialize(c, true)`
records `c` as the cached country code and queues one send; once the dispatcher has run
the queue, exactly one frame (version, opcode, `c`) has followed the frames of the older
units when the transport is there at the time the send runs, and no frame when it is
not. -/
theorem keyboard_initialize_forced (K : protocol_constants) (glob : path → List path)
    (s : client) (c : Nat) :
    client.async_virtual_hid_keyboard_initialize c true s =
      client.async_send request.virtual_hid_keyboard_initialize (some [c])
        { s with last_virtual_hid_keyboard_initialize_country_code_ := some c } ∧
    (settle K glob ( client.async_virtual_hid_keyboard_initialize c true s)).1 =
      { (settle K glob s).1 with
        last_virtual_hid_keyboard_initialize_country_code_ := some c } ∧
    sent_frames (settle K glob ( client.async_virtual_hid_keyboard_initialize c true s)).2 =
      sent_frames (settle K glob s).2 ++
        (if (settle K glob s).1.client_.isSome then
          [K.embedded_driver_version ++
            [K.request_value request.virtual_hid_keyboard_initialize] ++ [c]]
        else []) ∧
    ((settle K glob s).1.client_.isSome = true →
      sent_frames (settle K glob ( client.async_virtual_hid_keyboard_initialize c true s)).2 =
        sent_frames (settle K glob s).2 ++
          [K.embedded_driver_version ++
            [K.request_value request.virtual_hid_keyboard_initialize] ++ [c]]) := by
  have hsf := settle_keyboard_initialize_of_sent K glob s c true (Or.inl rfl)
  refine ⟨keyboard_initialize_of_sent s c true (Or.inl rfl), hsf.1, hsf.2, ?_⟩
  intro hlive
  rw [hsf.2, if_pos hlive]

/-- C3, the input that refutes the claim as first stated: on a client that was never
started the forced call sends nothing, because there is no transport. -/
theorem keyboard_initialize_forced_counterexample :
    (settle sample_constants empty_directory
      ( client.async_virtual_hid_keyboard_initialize 0 true
        (client.new "/tmp/c.sock".toList))).2 = [] := by
  decide

/-- C3, the theorem at a concrete input: the forced call on a client that is ready with
country code 0 sends `1 0 0 0 | 3 | 0` again. -/
theorem keyboard_initialize_forced_witness :
    sent_frames (settle sample_constants three_sockets
        ( client.async_virtual_hid_keyboard_initialize 0 true ready_client)).2 =
      sent_frames (settle sample_constants three_sockets ready_client).2 ++
        [sample_constants.embedded_driver_version ++
          [sample_constants.request_value request.virtual_hid_keyboard_initialize] ++ [0]] :=
  (keyboard_initialize_forced sample_constants three_sockets ready_client 0).2.2.2 (by decide)

/-! ## The `closed` signal of the transport -/

theorem run_unit_of_work_keeps_country_code (K : protocol_constants)
    (glob : path → List path) (w : unit_of_work) (s : client) :
    (run_unit_of_work K glob w s).1.last_virtual_hid_keyboard_initialize_country_code_ =
      s.last_virtual_hid_keyboard_initialize_country_code_ := by
  cases w <;> simp [run_unit_of_work, create_client] <;> split <;> rfl

theorem run_queue_keeps_country_code (K : protocol_constants) (glob : path → List path)
    (ws : List unit_of_work) (s : client) :
    (run_queue K glob ws s).1.last_virtual_hid_keyboard_initialize_country_code_ =
      s.last_virtual_hid_keyboard_initialize_country_code_ := by
  induction ws generalizing s with
  | nil => rfl
  | cons w ws ih =>
    simp only [run_queue]
    rw [ih, run_unit_of_work_keeps_country_code]

/-- C4: the unit of work queued by the handler of the transport's `closed` signal fires
`closed` with the caches still as they were, then sets the keyboard ready cache to False
and fires the keyboard ready signal with `false`, then sets the pointing ready cache to
False and fires the pointing ready signal with `false`; nothing else changes. So for every
prior state, once the dispatcher has run the queue after a `closed` signal, both ready
caches are False, the cached country code is the one before, and exactly these three
signals, in this order, follow what the older units emitted. -/
theorem closed_resets_ready_caches (K : protocol_constants) (glob : path → List path)
    (s : client) :
    run_unit_of_work K glob unit_of_work.closed s =
      ({ s with
          last_virtual_hid_keyboard_ready_ := some false
          last_virtual_hid_pointing_ready_ := some false },
        [output.fired signal.closed s.view,
          output.fired (signal.virtual_hid_keyboard_ready_response false)
            { s.view with keyboard_ready := some false },
          output.fired (signal.virtual_hid_pointing_ready_response false)
            { s.view with keyboard_ready := some false, pointing_ready := some false }]) ∧
    (settle K glob (client.transport_closed s)).1.last_virtual_hid_keyboard_ready_ =
      some false ∧
    (settle K glob (client.transport_closed s)).1.last_virtual_hid_pointing_ready_ =
      some false ∧
    (settle K glob (client.transport_closed s)).1.last_virtual_hid_keyboard_initialize_country_code_ =
      s.last_virtual_hid_keyboard_initialize_country_code_ ∧
    (settle K glob (client.transport_closed s)).2 =
      (settle K glob s).2 ++
        [output.fired signal.closed (settle K glob s).1.view,
          output.fired (signal.virtual_hid_keyboard_ready_response false)
            { (settle K glob s).1.view with keyboard_ready := some false },
          output.fired (signal.virtual_hid_pointing_ready_response false)
            { (settle K glob s).1.view with
              keyboard_ready := some false, pointing_ready := some false }] := by
  have hk := run_queue_keeps_country_code K glob s.dispatcher_queue
    { s with dispatcher_queue := [] }
  refine ⟨rfl, ?_, ?_, ?_, ?_⟩ <;>
    simp only [client.transport_closed, settle_enqueue, run_unit_of_work, fire, client.view]
  exact hk

/-! ## The `received` signal of the transport -/

theorem received_of_length_ne_one (K : protocol_constants) (s : client) (r : Nat)
    (p : List Nat) (hp : p.length ≠ 1) :
    received K (some (r :: p)) s = (s, []) := by
  simp only [received, List.length_cons, Nat.add_sub_cancel, if_neg hp]
  repeat' split
  all_goals rfl

/-- C5: a received buffer that carries, after its first byte, no payload or more than one
byte fires no signal and leaves the client (so every cache) as it was, whatever the first
byte is: in particular when it is the value of one of the four boolean-result enumerators
`driver_loaded_result`, `driver_version_matched_result`, `virtual_hid_keyboard_ready_result`
and `virtual_hid_pointing_ready_result`. -/
theorem received_size_guard (K : protocol_constants) (s : client) (r : Nat)
    (p : List Nat) (hp : p.length ≠ 1) :
    received K (some (r :: p)) s = (s, []) :=
  received_of_length_ne_one K s r p hp

/-- C5, the theorem at concrete inputs: a keyboard ready result with two payload bytes,
and a pointing ready result with none. -/
theorem received_size_guard_witness :
    received sample_constants
        (some (sample_constants.response_value response.virtual_hid_keyboard_ready_result ::
          [1, 1]))
        ready_client = (ready_client, []) ∧
    received sample_constants
        (some (sample_constants.response_value response.virtual_hid_pointing_ready_result ::
          []))
        ready_client = (ready_client, []) :=
  ⟨received_size_guard sample_constants ready_client _ [1, 1] (by decide),
    received_size_guard sample_constants ready_client _ [] (by decide)⟩

/-! ## Server discovery -/

theorem le_getLast_of_sorted (l : List path) (a : path)
    (hs : List.Sorted (fun x y => x ≤ y) l) (hl : l.getLast? = some a) :
    ∀ x ∈ l, x ≤ a := by
  obtain ⟨ys, rfl⟩ := List.getLast?_eq_some_iff.mp hl
  intro x hx
  have hp := List.pairwise_append.mp hs
  rcases List.mem_append.mp hx with h | h
  · exact hp.2.2 x h a (List.mem_singleton.mpr rfl)
  · rw [List.mem_singleton.mp h]

theorem insertionSort_eq_of_perm (l₁ l₂ : List path) (h : l₁.Perm l₂) :
    l₁.insertionSort (fun a b => a ≤ b) = l₂.insertionSort (fun a b => a ≤ b) :=
  List.eq_of_perm_of_sorted
    (((List.perm_insertionSort _ l₁).trans h).trans (List.perm_insertionSort _ l₂).symm)
    (List.sorted_insertionSort _ l₁) (List.sorted_insertionSort _ l₂)

/-- C6: when the directory enumeration returns at least one path,
`find_server_socket_file_path` returns one of the returned paths, and every returned path
is less than or equal to it in the lexicographic order; the result does not depend on the
order in which the enumeration lists the paths; and when the enumeration returns nothing
the result is the server socket directory joined with `not_found.sock`. -/
theorem find_server_socket_file_path_greatest (K : protocol_constants)
    (glob : path → List path) :
    (glob (path_append K.server_socket_directory_path "*.sock".toList) ≠ [] →
      find_server_socket_file_path K glob ∈
          glob (path_append K.server_socket_directory_path "*.sock".toList) ∧
        ∀ p ∈ glob (path_append K.server_socket_directory_path "*.sock".toList),
          p ≤ find_server_socket_file_path K glob) ∧
    (∀ glob2 : path → List path,
      (glob2 (path_append K.server_socket_directory_path "*.sock".toList)).Perm
          (glob (path_append K.server_socket_directory_path "*.sock".toList)) →
        find_server_socket_file_path K glob2 = find_server_socket_file_path K glob) ∧
    (glob (path_append K.server_socket_directory_path "*.sock".toList) = [] →
      find_server_socket_file_path K glob =
        path_append K.server_socket_directory_path "not_found.sock".toList) := by
  refine ⟨?_, ?_, ?_⟩
  · intro hne
    have hperm := List.perm_insertionSort (fun a b : path => a ≤ b)
      (glob (path_append K.server_socket_directory_path "*.sock".toList))
    have hsorted := List.sorted_insertionSort (fun a b : path => a ≤ b)
      (glob (path_append K.server_socket_directory_path "*.sock".toList))
    cases hl : ((glob (path_append K.server_socket_directory_path "*.sock".toList)).insertionSort
        (fun a b => a ≤ b)).getLast? with
    | none =>
      rw [List.getLast?_eq_none_iff] at hl
      rw [hl] at hperm
      exact absurd (List.nil_perm.mp hperm) hne
    | some a =>
      have hres : find_server_socket_file_path K glob = a := by
        simp only [find_server_socket_file_path, hl]
      rw [hres]
      refine ⟨?_, fun p hp => ?_⟩
      · exact hperm.subset (List.mem_of_getLast?_eq_some hl)
      · exact le_getLast_of_sorted _ a hsorted hl p (hperm.symm.subset hp)
  · intro glob2 hperm
    simp only [find_server_socket_file_path]
    rw [insertionSort_eq_of_perm _ _ hperm]
  · intro hnil
    simp only [find_server_socket_file_path]
    rw [hnil]
    rfl

/-- C6, the theorem at a concrete input: the enumeration lists `b.sock`, `c.sock` and
`a.sock` of the server directory; the result is `c.sock`, and the same for the listing
`a.sock`, `b.sock`, `c.sock`. -/
theorem find_server_socket_file_path_greatest_witness :
    find_server_socket_file_path sample_constants three_sockets =
        "/var/run/vhidd_server/c.sock".toList ∧
      (find_server_socket_file_path sample_constants three_sockets ∈
          three_sockets
            (path_append sample_constants.server_socket_directory_path "*.sock".toList) ∧
        ∀ p ∈ three_sockets
            (path_append sample_constants.server_socket_directory_path "*.sock".toList),
          p ≤ find_server_socket_file_path sample_constants three_sockets) ∧
      find_server_socket_file_path sample_constants three_sockets_sorted =
        find_server_socket_file_path sample_constants three_sockets ∧
      find_server_socket_file_path sample_constants empty_directory =
        "/var/run/vhidd_server/not_found.sock".toList :=
  ⟨by decide,
    (find_server_socket_file_path_greatest sample_constants three_sockets).1 (by decide),
    (find_server_socket_file_path_greatest sample_constants three_sockets).2.1
      three_sockets_sorted (by decide),
    ((find_server_socket_file_path_greatest sample_constants empty_directory).2.2
      (by decide)).trans (by decide)⟩

/-! ## Who writes the ready caches -/

theorem run_unit_of_work_keeps_ready (K : protocol_constants) (glob : path → List path)
    (w : unit_of_work) (s : client) (hw : w ≠ unit_of_work.closed) :
    (run_unit_of_work K glob w s).1.last_virtual_hid_keyboard_ready_ =
        s.last_virtual_hid_keyboard_ready_ ∧
      (run_unit_of_work K glob w s).1.last_virtual_hid_pointing_ready_ =
        s.last_virtual_hid_pointing_ready_ := by
  cases w <;> simp [run_unit_of_work, create_client] at hw ⊢ <;> split <;> exact ⟨rfl, rfl⟩

theorem run_queue_keeps_ready (K : protocol_constants) (glob : path → List path)
    (ws : List unit_of_work) (s : client) (hw : unit_of_work.closed ∉ ws) :
    (run_queue K glob ws s).1.last_virtual_hid_keyboard_ready_ =
        s.last_virtual_hid_keyboard_ready_ ∧
      (run_queue K glob ws s).1.last_virtual_hid_pointing_ready_ =
        s.last_virtual_hid_pointing_ready_ := by
  induction ws generalizing s with
  | nil => exact ⟨rfl, rfl⟩
  | cons w ws ih =>
    have h1 := run_unit_of_work_keeps_ready K glob w s
      (fun h => hw (h ▸ List.mem_cons_self _ _))
    have h2 := ih (run_unit_of_work K glob w s).1 (fun h => hw (List.mem_cons_of_mem _ h))
    simp only [run_queue]
    exact ⟨h2.1.trans h1.1, h2.2.trans h1.2⟩

theorem received_keeps_ready (K : protocol_constants) (s : client) (r : Nat) (p : List Nat)
    (hk : p.length = 1 → r ≠ K.response_value response.virtual_hid_keyboard_ready_result)
    (hp : p.length = 1 → r ≠ K.response_value response.virtual_hid_pointing_ready_result) :
    (received K (some (r :: p)) s).1.last_virtual_hid_keyboard_ready_ =
        s.last_virtual_hid_keyboard_ready_ ∧
      (received K (some (r :: p)) s).1.last_virtual_hid_pointing_ready_ =
        s.last_virtual_hid_pointing_ready_ := by
  by_cases hl : p.length = 1
  · simp only [received, List.length_cons, Nat.add_sub_cancel, if_pos hl, if_neg (hk hl),
      if_neg (hp hl)]
    repeat' split
    all_goals exact ⟨rfl, rfl⟩
  · rw [received_of_length_ne_one K s r p hl]
    exact ⟨rfl, rfl⟩

/-- C7: every action other than the dispatcher running the unit of work of `closed` and
the receipt of a well-formed keyboard or pointing ready result leaves both ready caches as
they were: the caller's part of `async_start`, of `async_stop` and of every request-sending
member function (the two `initialize` ones with either `force`, `async_post_report` with
every report), the handlers of the transport's `connected`, `connect_failed`, `closed` and
`error_occurred` signals (which only queue), the dispatcher running any other unit of
work, and the receipt of any other buffer. A buffer that starts with the keyboard ready
opcode never changes the pointing cache, and one that starts with the pointing ready
opcode never changes the keyboard cache. A whole queue without a `closed` unit leaves
both caches as they were. -/
theorem ready_caches_written_only_by_results_and_close (K : protocol_constants)
    (glob : path → List path) (s : client)
    (hdistinct : K.response_value response.virtual_hid_pointing_ready_result ≠
      K.response_value response.virtual_hid_keyboard_ready_result) :
    (∀ a : action, ¬ action.is_ready_result_or_close K s a →
      (step K glob a s).1.last_virtual_hid_keyboard_ready_ =
          s.last_virtual_hid_keyboard_ready_ ∧
        (step K glob a s).1.last_virtual_hid_pointing_ready_ =
          s.last_virtual_hid_pointing_ready_) ∧
    (∀ p : List Nat,
      (received K (some (K.response_value response.virtual_hid_keyboard_ready_result :: p))
        s).1.last_virtual_hid_pointing_ready_ = s.last_virtual_hid_pointing_ready_) ∧
    (∀ p : List Nat,
      (received K (some (K.response_value response.virtual_hid_pointing_ready_result :: p))
        s).1.last_virtual_hid_keyboard_ready_ = s.last_virtual_hid_keyboard_ready_) ∧
    (unit_of_work.closed ∉ s.dispatcher_queue →
      (settle K glob s).1.last_virtual_hid_keyboard_ready_ =
          s.last_virtual_hid_keyboard_ready_ ∧
        (settle K glob s).1.last_virtual_hid_pointing_ready_ =
          s.last_virtual_hid_pointing_ready_) := by
  refine ⟨?_, ?_, ?_, ?_⟩
  · intro a h
    cases a with
    | async_virtual_hid_keyboard_initialize c force =>
      simp only [step, client.async_virtual_hid_keyboard_initialize]
      split <;> exact ⟨rfl, rfl⟩
    | async_virtual_hid_pointing_initialize force =>
      simp only [step, client.async_virtual_hid_pointing_initialize]
      split <;> exact ⟨rfl, rfl⟩
    | async_post_report report => cases report <;> exact ⟨rfl, rfl⟩
    | transport_received buffer =>
      match buffer with
      | none => exact ⟨rfl, rfl⟩
      | some [] => exact ⟨rfl, rfl⟩
      | some (r :: p) =>
        apply received_keeps_ready
        · intro hl hr
          match p, hl with
          | [b], _ => exact h (Or.inl hr)
        · intro hl hr
          match p, hl with
          | [b], _ => exact h (Or.inr hr)
    | dispatch =>
      simp only [step, dispatch]
      match hq : s.dispatcher_queue with
      | [] => exact ⟨rfl, rfl⟩
      | w :: rest =>
        have hw : w ≠ unit_of_work.closed := by
          intro hw
          apply h
          simp only [action.is_ready_result_or_close, hq, hw, List.head?_cons]
        exact run_unit_of_work_keeps_ready K glob w _ hw
    | _ => exact ⟨rfl, rfl⟩
  · intro p
    simp only [received]
    repeat' split
    all_goals first | rfl | exact absurd trivial (by assumption)
  · intro p
    simp only [received, if_neg hdistinct]
    repeat' split
    all_goals rfl
  · intro h
    exact run_queue_keeps_ready K glob s.dispatcher_queue _ h

/-- C7, the theorem at a concrete input: on the ready client, the dispatcher running the
unit queued by a forced keyboard initialisation leaves both ready caches True and Unknown. -/
theorem ready_caches_written_only_by_results_and_close_witness :
    (step sample_constants three_sockets action.dispatch
        ( client.async_virtual_hid_keyboard_initialize 9 true
          ready_client)).1.last_virtual_hid_keyboard_ready_ = some true ∧
      (step sample_constants three_sockets action.dispatch
        ( client.async_virtual_hid_keyboard_initialize 9 true
          ready_client)).1.last_virtual_hid_pointing_ready_ = none :=
  (ready_caches_written_only_by_results_and_close sample_constants three_sockets
    ( client.async_virtual_hid_keyboard_initialize 9 true ready_client) (by decide)).1
    action.dispatch (by decide)

/-! ## Frames -/

theorem frame_of_send_buffer (K : protocol_constants) (r : request)
    (data : Option (List Nat)) :
    send_buffer K r data = K.embedded_driver_version ++ [K.request_value r] ++ data.getD [] := by
  cases data <;> simp [send_buffer, append_data]

theorem frame_parts (v d : List Nat) (o : Nat) :
    (v ++ [o] ++ d).length = v.length + 1 + d.length ∧
      (v ++ [o] ++ d).take v.length = v ∧
      (v ++ [o] ++ d).get? v.length = some o ∧
      (v ++ [o] ++ d).drop (v.length + 1) = d := by
  refine ⟨by simp only [List.length_append, List.length_singleton], ?_, ?_,
    List.drop_left' (by simp)⟩
  · rw [List.append_assoc]
    exact List.take_left' rfl
  · induction v with
    | nil => rfl
    | cons x v ih => simpa using ih

/-- C8: when the transport is there at the time the dispatcher runs the unit queued by
`async_send(r)` or `async_send(r, data)`, the transport is handed exactly one buffer, after
what the older units emitted, and the state is the one the older units leave. The buffer is
the bytes of the embedded driver version, then the one opcode byte of `r`, then the bytes
of `data` (none for the overload without data): its length is the version's length plus 1
plus the payload's, its first bytes are the version, the next byte is the opcode, and what
follows is the payload, byte for byte; for `virtual_hid_keyboard_initialize` that is the
one byte of the country code. Every buffer that any action hands to the transport has
this layout. -/
theorem async_send_frame_layout (K : protocol_constants) (glob : path → List path)
    (r : request) (data : Option (List Nat)) (s : client)
    (hlive : (settle K glob s).1.client_.isSome = true) :
    settle K glob (client.async_send r data s) =
      ((settle K glob s).1,
        (settle K glob s).2 ++ [output.transport_async_send (send_buffer K r data)]) ∧
    send_buffer K r data =
      K.embedded_driver_version ++ [K.request_value r] ++ data.getD [] ∧
    (send_buffer K r data).length =
      K.embedded_driver_version.length + 1 + (data.getD []).length ∧
    (send_buffer K r data).take K.embedded_driver_version.length =
      K.embedded_driver_version ∧
    (send_buffer K r data).get? K.embedded_driver_version.length =
      some (K.request_value r) ∧
    (send_buffer K r data).drop (K.embedded_driver_version.length + 1) = data.getD [] ∧
    (∀ c : Nat,
      (send_buffer K request.virtual_hid_keyboard_initialize (some [c])).drop
        (K.embedded_driver_version.length + 1) = [c]) ∧
    (∀ (a : action) (s1 : client) (buffer : List Nat),
      output.transport_async_send buffer ∈ (step K glob a s1).2 →
        ∃ r1 payload,
          buffer = K.embedded_driver_version ++ [K.request_value r1] ++ payload) := by
  have hparts := frame_parts K.embedded_driver_version (data.getD []) (K.request_value r)
  rw [← frame_of_send_buffer] at hparts
  refine ⟨?_, frame_of_send_buffer K r data, hparts.1, hparts.2.1, hparts.2.2.1,
    hparts.2.2.2, ?_, ?_⟩
  · rw [settle_async_send, if_pos hlive]
  · intro c
    rw [frame_of_send_buffer]
    exact (frame_parts K.embedded_driver_version [c] _).2.2.2
  · intro a s1 buffer hmem
    cases a with
    | dispatch =>
      simp only [step, dispatch] at hmem
      match hq : s1.dispatcher_queue with
      | [] => simp [hq] at hmem
      | w :: rest =>
        simp only [hq] at hmem
        cases w with
        | send r1 d =>
          simp only [run_unit_of_work] at hmem
          split at hmem
          · simp only [List.mem_singleton, output.transport_async_send.injEq] at hmem
            exact ⟨r1, d.getD [], hmem.trans (frame_of_send_buffer K r1 d)⟩
          · simp at hmem
        | start =>
          simp only [run_unit_of_work] at hmem
          split at hmem <;> simp at hmem
        | _ => simp [run_unit_of_work, fire] at hmem
    | transport_received b =>
      simp only [step, received] at hmem
      repeat' split at hmem
      all_goals simp [fire] at hmem
    | _ => simp [step] at hmem

/-- C8, the theorem at a concrete input: `async_post_report` of a three-byte keyboard
report on the ready client hands the transport `1 0 0 0 | 11 | 4 5 6`, and stripping the
four version bytes and the opcode gives `4 5 6` back. -/
theorem async_send_frame_layout_witness :
    (settle sample_constants three_sockets
        (client.async_post_report (hid_report.keyboard_input [4, 5, 6]) ready_client)).2 =
      [output.transport_async_send [1, 0, 0, 0, 11, 4, 5, 6]] ∧
    (send_buffer sample_constants request.post_keyboard_input_report (some [4, 5, 6])).drop
      (sample_constants.embedded_driver_version.length + 1) = [4, 5, 6] :=
  ⟨congrArg Prod.snd
      (async_send_frame_layout sample_constants three_sockets
        request.post_keyboard_input_report (some [4, 5, 6]) ready_client (by decide)).1,
    (async_send_frame_layout sample_constants three_sockets
      request.post_keyboard_input_report (some [4, 5, 6]) ready_client (by decide)).2.2.2.2.2.1⟩

/-! ## Boolean results -/

theorem byte_to_bool (b : Nat) : (b != 0) = decide (b ≠ 0) := by
  cases b <;> simp

/-- C10: with the five response enumerators numbered apart, a received buffer of exactly
two bytes, the value of `virtual_hid_keyboard_ready_result` (of
`virtual_hid_pointing_ready_result`) and a byte `b`, sets the keyboard (pointing) ready
cache to the boolean of `b`, true for every non-zero byte and false for zero, changes
nothing else, and fires the keyboard (pointing) ready signal exactly once, with that same
boolean and with the cache already set. For `driver_loaded_result` and
`driver_version_matched_result` the matching signal is fired exactly once with the boolean
of `b` and the client is unchanged. A null buffer, an empty buffer and a buffer that
starts with the value of `none` fire nothing and change nothing. -/
theorem received_boolean_result (K : protocol_constants) (s : client) (b : Nat)
    (hinj : Function.Injective K.response_value) :
    received K (some [K.response_value response.virtual_hid_keyboard_ready_result, b]) s =
      ({ s with last_virtual_hid_keyboard_ready_ := some (decide (b ≠ 0)) },
        [output.fired (signal.virtual_hid_keyboard_ready_response (decide (b ≠ 0)))
          { s.view with keyboard_ready := some (decide (b ≠ 0)) }]) ∧
    received K (some [K.response_value response.virtual_hid_pointing_ready_result, b]) s =
      ({ s with last_virtual_hid_pointing_ready_ := some (decide (b ≠ 0)) },
        [output.fired (signal.virtual_hid_pointing_ready_response (decide (b ≠ 0)))
          { s.view with pointing_ready := some (decide (b ≠ 0)) }]) ∧
    received K (some [K.response_value response.driver_loaded_result, b]) s =
      (s, [output.fired (signal.driver_loaded_response (decide (b ≠ 0))) s.view]) ∧
    received K (some [K.response_value response.driver_version_matched_result, b]) s =
      (s, [output.fired (signal.driver_version_matched_response (decide (b ≠ 0))) s.view]) ∧
    received K none s = (s, []) ∧
    received K (some []) s = (s, []) ∧
    (∀ p : List Nat, received K (some (K.response_value response.none :: p)) s = (s, [])) := by
  have h10 : K.response_value response.driver_loaded_result ≠
      K.response_value response.none := hinj.ne (by decide)
  have h20 : K.response_value response.driver_version_matched_result ≠
      K.response_value response.none := hinj.ne (by decide)
  have h21 : K.response_value response.driver_version_matched_result ≠
      K.response_value response.driver_loaded_result := hinj.ne (by decide)
  have h30 : K.response_value response.virtual_hid_keyboard_ready_result ≠
      K.response_value response.none := hinj.ne (by decide)
  have h31 : K.response_value response.virtual_hid_keyboard_ready_result ≠
      K.response_value response.driver_loaded_result := hinj.ne (by decide)
  have h32 : K.response_value response.virtual_hid_keyboard_ready_result ≠
      K.response_value response.driver_version_matched_result := hinj.ne (by decide)
  have h40 : K.response_value response.virtual_hid_pointing_ready_result ≠
      K.response_value response.none := hinj.ne (by decide)
  have h41 : K.response_value response.virtual_hid_pointing_ready_result ≠
      K.response_value response.driver_loaded_result := hinj.ne (by decide)
  have h42 : K.response_value response.virtual_hid_pointing_ready_result ≠
      K.response_value response.driver_version_matched_result := hinj.ne (by decide)
  have h43 : K.response_value response.virtual_hid_pointing_ready_result ≠
      K.response_value response.virtual_hid_keyboard_ready_result := hinj.ne (by decide)
  refine ⟨?_, ?_, ?_, ?_, rfl, rfl, ?_⟩
  · simp only [received, if_neg h30, if_neg h31, if_neg h32, if_true, List.length_cons,
      List.length_nil, List.headD_cons, byte_to_bool, fire, client.view]
  · simp only [received, if_neg h40, if_neg h41, if_neg h42, if_neg h43, if_true,
      List.length_cons, List.length_nil, List.headD_cons, byte_to_bool, fire, client.view]
  · simp only [received, if_neg h10, if_true, List.length_cons, List.length_nil,
      List.headD_cons, byte_to_bool, fire]
  · simp only [received, if_neg h20, if_neg h21, if_true, List.length_cons, List.length_nil,
      List.headD_cons, byte_to_bool, fire]
  · intro p
    simp only [received, if_true]

theorem sample_response_value_injective :
    Function.Injective sample_constants.response_value := by
  intro x y h
  cases x <;> cases y <;> first | rfl | exact absurd h (by decide)

/-- C10, the theorem at a concrete input: the byte 2 after the pointing ready opcode
sets the pointing cache of the ready client to True and fires one signal with `true`. -/
theorem received_boolean_result_witness :
    received sample_constants
        (some [sample_constants.response_value response.virtual_hid_pointing_ready_result, 2])
        ready_client =
      ({ ready_client with last_virtual_hid_pointing_ready_ := some true },
        [output.fired (signal.virtual_hid_pointing_ready_response true)
          { ready_client.view with pointing_ready := some true }]) :=
  (received_boolean_result sample_constants ready_client 2
    sample_response_value_injective).2.1

/-! ## Sending without a transport -/

theorem fired_signals_append (xs ys : List output) :
    fired_signals (xs ++ ys) = fired_signals xs ++ fired_signals ys := by
  induction xs with
  | nil => rfl
  | cons x xs ih => cases x <;> simp [fired_signals, ih]

theorem run_unit_of_work_keeps_queue (K : protocol_constants) (glob : path → List path)
    (w : unit_of_work) (s : client) :
    (run_unit_of_work K glob w s).1.dispatcher_queue = s.dispatcher_queue := by
  cases w <;> simp [run_unit_of_work, create_client] <;> split <;> rfl

theorem run_queue_keeps_queue (K : protocol_constants) (glob : path → List path)
    (ws : List unit_of_work) (s : client) :
    (run_queue K glob ws s).1.dispatcher_queue = s.dispatcher_queue := by
  induction ws generalizing s with
  | nil => rfl
  | cons w ws ih =>
    simp only [run_queue]
    rw [ih, run_unit_of_work_keeps_queue]

theorem settle_queue (K : protocol_constants) (glob : path → List path) (s : client) :
    (settle K glob s).1.dispatcher_queue = [] :=
  run_queue_keeps_queue K glob s.dispatcher_queue { s with dispatcher_queue := [] }

theorem run_unit_of_work_country_code_signals (K : protocol_constants)
    (glob : path → List path) (w : unit_of_work) (s : client) (x : Option Nat) :
    fired_signals (run_unit_of_work K glob w
        { s with last_virtual_hid_keyboard_initialize_country_code_ := x }).2 =
      fired_signals (run_unit_of_work K glob w s).2 := by
  cases w <;> simp [run_unit_of_work, create_client, fired_signals, fire] <;>
    split <;> simp [fired_signals]

theorem run_queue_country_code_signals (K : protocol_constants) (glob : path → List path)
    (ws : List unit_of_work) (s : client) (x : Option Nat) :
    fired_signals (run_queue K glob ws
        { s with last_virtual_hid_keyboard_initialize_country_code_ := x }).2 =
      fired_signals (run_queue K glob ws s).2 := by
  induction ws generalizing s with
  | nil => rfl
  | cons w ws ih =>
    simp only [run_queue, fired_signals_append, run_unit_of_work_country_code_signals,
      (run_unit_of_work_country_code K glob w s x).1]
    rw [ih]

theorem settle_country_code_signals (K : protocol_constants) (glob : path → List path)
    (s : client) (x : Option Nat) :
    fired_signals (settle K glob
        { s with last_virtual_hid_keyboard_initialize_country_code_ := x }).2 =
      fired_signals (settle K glob s).2 :=
  run_queue_country_code_signals K glob s.dispatcher_queue { s with dispatcher_queue := [] } x

/-- What the caller's part of a request-sending member function does: nothing is
emitted; at most the cached country code is written, and at most one send is queued. -/
theorem step_request_sending (K : protocol_constants) (glob : path → List path)
    (a : action) (s : client) (ha : a.is_request_sending = true) :
    (step K glob a s).2 = [] ∧
      ∃ x : Option Nat,
        (step K glob a s).1 =
            { s with last_virtual_hid_keyboard_initialize_country_code_ := x } ∨
          ∃ r data, (step K glob a s).1 =
            client.async_send r data
              { s with last_virtual_hid_keyboard_initialize_country_code_ := x } := by
  cases a with
  | async_virtual_hid_keyboard_initialize c force =>
    refine ⟨rfl, ?_⟩
    simp only [step, client.async_virtual_hid_keyboard_initialize]
    split
    · exact ⟨s.last_virtual_hid_keyboard_initialize_country_code_, Or.inl rfl⟩
    · exact ⟨some c, Or.inr ⟨_, _, rfl⟩⟩
  | async_virtual_hid_pointing_initialize force =>
    refine ⟨rfl, s.last_virtual_hid_keyboard_initialize_country_code_, ?_⟩
    simp only [step, client.async_virtual_hid_pointing_initialize]
    split
    · exact Or.inl rfl
    · exact Or.inr ⟨_, _, rfl⟩
  | async_post_report report =>
    refine ⟨rfl, s.last_virtual_hid_keyboard_initialize_country_code_, Or.inr ?_⟩
    cases report <;> exact ⟨_, _, rfl⟩
  | async_driver_loaded =>
    exact ⟨rfl, s.last_virtual_hid_keyboard_initialize_country_code_, Or.inr ⟨_, _, rfl⟩⟩
  | async_driver_version_matched =>
    exact ⟨rfl, s.last_virtual_hid_keyboard_initialize_country_code_, Or.inr ⟨_, _, rfl⟩⟩
  | async_virtual_hid_keyboard_terminate =>
    exact ⟨rfl, s.last_virtual_hid_keyboard_initialize_country_code_, Or.inr ⟨_, _, rfl⟩⟩
  | async_virtual_hid_keyboard_ready =>
    exact ⟨rfl, s.last_virtual_hid_keyboard_initialize_country_code_, Or.inr ⟨_, _, rfl⟩⟩
  | async_virtual_hid_keyboard_reset =>
    exact ⟨rfl, s.last_virtual_hid_keyboard_initialize_country_code_, Or.inr ⟨_, _, rfl⟩⟩
  | async_virtual_hid_pointing_terminate =>
    exact ⟨rfl, s.last_virtual_hid_keyboard_initialize_country_code_, Or.inr ⟨_, _, rfl⟩⟩
  | async_virtual_hid_pointing_ready =>
    exact ⟨rfl, s.last_virtual_hid_keyboard_initialize_country_code_, Or.inr ⟨_, _, rfl⟩⟩
  | async_virtual_hid_pointing_reset =>
    exact ⟨rfl, s.last_virtual_hid_keyboard_initialize_country_code_, Or.inr ⟨_, _, rfl⟩⟩
  | _ => simp [action.is_request_sending] at ha

theorem run_queue_of_sends_without_transport (K : protocol_constants)
    (glob : path → List path) (ws : List unit_of_work) (s : client)
    (hc : s.client_ = none) (hw : ∀ w ∈ ws, unit_of_work.is_send w) :
    run_queue K glob ws s = (s, []) := by
  induction ws with
  | nil => rfl
  | cons w ws ih =>
    have h1 : run_unit_of_work K glob w s = (s, []) := by
      have := hw w (List.mem_cons_self _ _)
      cases w <;> simp [unit_of_work.is_send] at this
      simp [run_unit_of_work, hc]
    simp only [run_queue, h1]
    rw [ih (fun w hm => hw w (List.mem_cons_of_mem _ hm))]
    rfl

theorem run_actions_without_transport (K : protocol_constants) (glob : path → List path)
    (as : List action) (s : client) (hc : s.client_ = none)
    (hq : ∀ w ∈ s.dispatcher_queue, unit_of_work.is_send w)
    (has : ∀ a ∈ as, a.is_request_sending = true ∨ a = action.dispatch) :
    (run_actions K glob as s).2 = [] ∧ (run_actions K glob as s).1.client_ = none ∧
      ∀ w ∈ (run_actions K glob as s).1.dispatcher_queue, unit_of_work.is_send w := by
  induction as generalizing s with
  | nil => exact ⟨rfl, hc, hq⟩
  | cons a as ih =>
    have hstep : (step K glob a s).2 = [] ∧ (step K glob a s).1.client_ = none ∧
        ∀ w ∈ (step K glob a s).1.dispatcher_queue, unit_of_work.is_send w := by
      rcases has a (List.mem_cons_self _ _) with ha | ha
      · obtain ⟨ho, x, hx | ⟨r, d, hx⟩⟩ := step_request_sending K glob a s ha
        · rw [hx]; exact ⟨ho, hc, hq⟩
        · rw [hx]
          refine ⟨ho, hc, ?_⟩
          intro w hw
          simp only [client.async_send, client.enqueue_to_dispatcher, List.mem_append,
            List.mem_singleton] at hw
          rcases hw with hw | hw
          · exact hq w hw
          · rw [hw]; trivial
      · subst ha
        simp only [step, dispatch]
        match hs : s.dispatcher_queue with
        | [] => exact ⟨rfl, hc, by simp [hs]⟩
        | w :: rest =>
          have hw := hq w (by rw [hs]; exact List.mem_cons_self _ _)
          have hrest : ∀ v ∈ rest, unit_of_work.is_send v :=
            fun v hv => hq v (by rw [hs]; exact List.mem_cons_of_mem _ hv)
          cases w <;> simp [unit_of_work.is_send] at hw
          simp only [run_unit_of_work, hc, Option.isSome_none, Bool.false_eq_true, if_false]
          exact ⟨trivial, trivial, hrest⟩
    have h2 := ih (step K glob a s).1 hstep.2.1 hstep.2.2
      (fun b hb => has b (List.mem_cons_of_mem _ hb))
    simp only [run_actions, hstep.1, List.nil_append]
    exact h2

theorem run_actions_sends_queued_behind (K : protocol_constants) (glob : path → List path)
    (as : List action) (s : client) (hc : (settle K glob s).1.client_ = none)
    (has : ∀ a ∈ as, a.is_request_sending = true) :
    (run_actions K glob as s).2 = [] ∧
      sent_frames (settle K glob (run_actions K glob as s).1).2 =
        sent_frames (settle K glob s).2 ∧
      fired_signals (settle K glob (run_actions K glob as s).1).2 =
        fired_signals (settle K glob s).2 := by
  induction as generalizing s with
  | nil => exact ⟨rfl, rfl, rfl⟩
  | cons a as ih =>
    have hstep : (step K glob a s).2 = [] ∧
        (settle K glob (step K glob a s).1).1.client_ = none ∧
        sent_frames (settle K glob (step K glob a s).1).2 = sent_frames (settle K glob s).2 ∧
        fired_signals (settle K glob (step K glob a s).1).2 =
          fired_signals (settle K glob s).2 := by
      obtain ⟨ho, x, hx | ⟨r, d, hx⟩⟩ :=
        step_request_sending K glob a s (has a (List.mem_cons_self _ _))
      · rw [hx]
        refine ⟨ho, ?_, (settle_country_code K glob s x).2,
          settle_country_code_signals K glob s x⟩
        rw [(settle_country_code K glob s x).1]
        exact hc
      · have hc2 : (settle K glob
            { s with last_virtual_hid_keyboard_initialize_country_code_ := x }).1.client_ =
            none := by
          rw [(settle_country_code K glob s x).1]
          exact hc
        rw [hx, settle_async_send]
        simp only [hc2, Option.isSome_none, Bool.false_eq_true, if_false, List.append_nil]
        exact ⟨ho, trivial, (settle_country_code K glob s x).2,
          settle_country_code_signals K glob s x⟩
    have h2 := ih (step K glob a s).1 hstep.2.1 (fun b hb => has b (List.mem_cons_of_mem _ hb))
    simp only [run_actions, hstep.1, List.nil_append]
    exact ⟨h2.1, h2.2.1.trans hstep.2.2.1, h2.2.2.trans hstep.2.2.2⟩

/-- C9: a send without a transport is a silent no-op.
(1) The unit of work queued by `async_send`, run while `client_` is null, hands nothing to
any transport, fires no signal (so reports no error) and changes nothing.
(2) On a client without transport and with nothing pending, any sequence of request-sending
calls, interleaved in any way with runs of the dispatcher, emits nothing at all, leaves
the client without transport, and what is still queued at the end emits nothing either.
(3) Whenever the transport is absent at the time the dispatcher gets to them, the units
queued by any sequence of request-sending calls add no frame and no signal to what the
older units emit. (4) After `async_stop` that is the case, whatever the state before and
whatever was pending: every send called after `async_stop` is such a no-op, also when the
dispatcher has not run the stop yet, and the dispatcher leaves the client without
transport and with an empty queue. -/
theorem send_without_transport_is_silent (K : protocol_constants) (glob : path → List path)
    (s : client) :
    (s.client_ = none → ∀ (r : request) (data : Option (List Nat)),
      run_unit_of_work K glob (unit_of_work.send r data) s = (s, [])) ∧
    (s.client_ = none → s.dispatcher_queue = [] →
      ∀ as : List action, (∀ a ∈ as, a.is_request_sending = true ∨ a = action.dispatch) →
        (run_actions K glob as s).2 = [] ∧
          (run_actions K glob as s).1.client_ = none ∧
          (settle K glob (run_actions K glob as s).1).2 = []) ∧
    ((settle K glob s).1.client_ = none →
      ∀ as : List action, (∀ a ∈ as, a.is_request_sending = true) →
        (run_actions K glob as s).2 = [] ∧
          sent_frames (settle K glob (run_actions K glob as s).1).2 =
            sent_frames (settle K glob s).2 ∧
          fired_signals (settle K glob (run_actions K glob as s).1).2 =
            fired_signals (settle K glob s).2) ∧
    ((settle K glob (client.async_stop s)).1.client_ = none ∧
      (settle K glob (client.async_stop s)).1.dispatcher_queue = [] ∧
      ∀ as : List action, (∀ a ∈ as, a.is_request_sending = true) →
        (run_actions K glob as (client.async_stop s)).2 = [] ∧
          sent_frames (settle K glob (run_actions K glob as (client.async_stop s)).1).2 =
            sent_frames (settle K glob (client.async_stop s)).2 ∧
          fired_signals (settle K glob (run_actions K glob as (client.async_stop s)).1).2 =
            fired_signals (settle K glob (client.async_stop s)).2) := by
  have hstop : (settle K glob (client.async_stop s)).1.client_ = none := by
    simp only [client.async_stop, settle_enqueue, run_unit_of_work]
  refine ⟨?_, ?_, ?_, hstop, settle_queue K glob _, ?_⟩
  · intro hc r data
    simp [run_unit_of_work, hc]
  · intro hc hq as has
    have h := run_actions_without_transport K glob as s hc (by simp [hq]) has
    refine ⟨h.1, h.2.1, ?_⟩
    simp only [settle]
    rw [run_queue_of_sends_without_transport K glob _ _ (by exact h.2.1) h.2.2]
  · intro hc as has
    exact run_actions_sends_queued_behind K glob as s hc has
  · intro as has
    exact run_actions_sends_queued_behind K glob as _ hstop has

/-- C9, the theorem at concrete inputs: on a new client, three sends with dispatcher runs
in between emit nothing; and on the ready client, a report posted and a keyboard
initialisation forced after `async_stop` put no frame behind the stop. -/
theorem send_without_transport_is_silent_witness :
    ((run_actions sample_constants empty_directory
        [action.async_driver_loaded, action.dispatch,
          action.async_virtual_hid_keyboard_initialize 5 true,
          action.async_post_report (hid_report.pointing_input [1, 2]), action.dispatch]
        (client.new "/tmp/c.sock".toList)).2 = [] ∧
      (run_actions sample_constants empty_directory
        [action.async_driver_loaded, action.dispatch,
          action.async_virtual_hid_keyboard_initialize 5 true,
          action.async_post_report (hid_report.pointing_input [1, 2]), action.dispatch]
        (client.new "/tmp/c.sock".toList)).1.client_ = none ∧
      (settle sample_constants empty_directory
        (run_actions sample_constants empty_directory
          [action.async_driver_loaded, action.dispatch,
            action.async_virtual_hid_keyboard_initialize 5 true,
            action.async_post_report (hid_report.pointing_input [1, 2]), action.dispatch]
          (client.new "/tmp/c.sock".toList)).1).2 = []) ∧
    ((run_actions sample_constants three_sockets
        [action.async_post_report (hid_report.keyboard_input [4, 5, 6]),
          action.async_virtual_hid_keyboard_initialize 5 true]
        (client.async_stop ready_client)).2 = [] ∧
      sent_frames (settle sample_constants three_sockets
        (run_actions sample_constants three_sockets
          [action.async_post_report (hid_report.keyboard_input [4, 5, 6]),
            action.async_virtual_hid_keyboard_initialize 5 true]
          (client.async_stop ready_client)).1).2 =
        sent_frames (settle sample_constants three_sockets (client.async_stop ready_client)).2 ∧
      fired_signals (settle sample_constants three_sockets
        (run_actions sample_constants three_sockets
          [action.async_post_report (hid_report.keyboard_input [4, 5, 6]),
            action.async_virtual_hid_keyboard_initialize 5 true]
          (client.async_stop ready_client)).1).2 =
        fired_signals
          (settle sample_constants three_sockets (client.async_stop ready_client)).2) :=
  ⟨(send_without_transport_is_silent sample_constants empty_directory
      (client.new "/tmp/c.sock".toList)).2.1 (by decide) (by decide) _ (by decide),
    (send_without_transport_is_silent sample_constants three_sockets
      ready_client).2.2.2.2.2 _ (by decide)⟩

/-! ## The dispatcher, step by step -/

theorem run_unit_of_work_with_queue (K : protocol_constants) (glob : path → List path)
    (w : unit_of_work) (s : client) (q : List unit_of_work) :
    run_unit_of_work K glob w { s with dispatcher_queue := q } =
      ({ (run_unit_of_work K glob w s).1 with dispatcher_queue := q },
        (run_unit_of_work K glob w s).2) := by
  cases w <;> simp [run_unit_of_work, create_client, fire, client.view] <;> split <;> rfl

theorem run_queue_with_queue (K : protocol_constants) (glob : path → List path)
    (ws : List unit_of_work) (s : client) (q : List unit_of_work) :
    run_queue K glob ws { s with dispatcher_queue := q } =
      ({ (run_queue K glob ws s).1 with dispatcher_queue := q }, (run_queue K glob ws s).2) := by
  induction ws generalizing s with
  | nil => rfl
  | cons w ws ih =>
    simp only [run_queue, run_unit_of_work_with_queue, ih]

/-- The dispatcher running everything that is queued is the dispatcher running the oldest
unit and then everything that is queued after it. -/
theorem settle_eq_dispatch_then_settle (K : protocol_constants) (glob : path → List path)
    (s : client) :
    settle K glob s =
      match s.dispatcher_queue with
      | [] => (s, [])
      | _ :: _ =>
        ((settle K glob (dispatch K glob s).1).1,
          (dispatch K glob s).2 ++ (settle K glob (dispatch K glob s).1).2) := by
  cases hq : s.dispatcher_queue with
  | nil =>
    simp only [settle, hq, run_queue]
    cases s
    simp_all
  | cons w rest =>
    simp only [settle, dispatch, hq, run_queue, run_unit_of_work_with_queue,
      run_unit_of_work_keeps_queue, run_queue_with_queue]

end virtual_hid_device_service
